import Mathlib

/-!
Verification of the chipdb-locator core of `icetime/iceutil.cc`.

The file shallowly embeds the two components of the source:
`proc_self_dirname` (one definition per platform variant) and
`find_chipdb` (candidate construction, probe order, diagnostics).

Ambient process and filesystem state is passed explicitly:
  * `fopen` success of `file_test_open` is a predicate `fs : String → Bool`
    (the source discards every error detail, so a Boolean is exact);
  * environment variables are `Option String` (`none` = unset / `getenv`
    returned a null pointer);
  * `stat`-plus-`S_IXUSR` success on the OpenBSD variant is a predicate
    `st : String → Bool`;
  * `realpath` is a partial function `String → Option String`.
-/

/-- Outcome of running a piece of C code: a normal return value, the
`fprintf`+`exit(EXIT_FAILURE)` path, or undefined behavior (a null pointer
reaching a function that dereferences it). -/
inductive CResult (α : Type) where
  | ok : α → CResult α
  | fatalError : CResult α
  | undefinedBehavior : CResult α
deriving DecidableEq, Repr

/-- The trailing-trim loop shared by the POSIX variants:
`while (buflen > 0 && path[buflen-1] != '/') buflen--;` keeps the prefix of
the buffer up to and including the last `/` (empty if there is none). -/
def dirnameChars (cs : List Char) : List Char :=
  (cs.reverse.dropWhile (fun c => c != '/')).reverse

/-- `dirnameChars` on a `String`. -/
def dirnameOf (s : String) : String :=
  String.mk (dirnameChars s.data)

/-- The Windows trim loop accepts either separator:
`while (i > 0 && shortpath[i-1] != '/' && shortpath[i-1] != '\\') ...`. -/
def trimWinChars (cs : List Char) : List Char :=
  (cs.reverse.dropWhile (fun c => c != '/' && c != '\\')).reverse

/-- Linux/Cygwin variant of `proc_self_dirname`.
`readlink("/proc/self/exe", path, sizeof(path))` is modelled by its target
(`none` = the call failed, which the source turns into a fatal error) and the
buffer size `sizeof(path) = PATH_MAX`; `readlink` silently truncates the
target to the buffer size, and the source checks only `buflen < 0`, then
trims to the last separator. -/
def proc_self_dirname_linux (target : Option String) (bufsize : Nat) : CResult String :=
  match target with
  | none => .fatalError
  | some t => .ok (String.mk (dirnameChars (t.data.take bufsize)))

/-- FreeBSD variant: the `KERN_PROC_PATHNAME` sysctl result (`none` = either
sysctl call or the `malloc` failed, all fatal in the source), trimmed to the
last separator. The buffer is sized by a first sysctl query, so no
truncation arises. -/
def proc_self_dirname_freebsd (sysctlPath : Option String) : CResult String :=
  match sysctlPath with
  | none => .fatalError
  | some p => .ok (dirnameOf p)

/-- macOS variant: `_NSGetExecutablePath` is retried with a grown buffer
until it succeeds, so the result is the full executable path trimmed to the
last separator; there is no fatal branch. -/
def proc_self_dirname_apple (exePath : String) : String :=
  dirnameOf exePath

/-- Windows variant: `GetModuleFileName` then `GetShortPathName`
(`none` = either returned zero, fatal in the source), trimmed back to the
last `/` or `\`. -/
def proc_self_dirname_windows (shortpath : Option String) : CResult String :=
  match shortpath with
  | none => .fatalError
  | some s => .ok (String.mk (trimWinChars s.data))

/-- The dispatch on `*comm` in the OpenBSD variant:
`if (*comm == '/' || *comm == '.')`. Reading `*comm` on the empty string
yields the terminating NUL, which is neither character. -/
def startsWithSlashOrDot (s : String) : Bool :=
  match s.data with
  | [] => false
  | c :: _ => c == '/' || c == '.'

/-- Split a character list on a separator, keeping empty fields. -/
def splitCharsOn (sep : Char) : List Char → List (List Char)
  | [] => [[]]
  | c :: cs =>
    match splitCharsOn sep cs with
    | [] => if c == sep then [[], []] else [[c]]
    | t :: ts => if c == sep then [] :: t :: ts else (c :: t) :: ts

/-- `strtok_r(xpath, ":", &sp)` iterated to exhaustion: maximal non-empty
tokens between colons (consecutive, leading and trailing separators produce
no token). -/
def strtokSplit (s : String) : List String :=
  ((splitCharsOn ':' s.data).map String.mk).filter (fun t => t != "")

/-- `snprintf(epath, PATH_MAX, "%s/%s", path, comm)`: the join
`path ++ "/" ++ comm` silently truncated to the `char epath[PATH_MAX]`
buffer — `snprintf` writes at most `PATH_MAX - 1` characters plus the
terminating NUL and reports no error on truncation. -/
def snprintfJoin (pathMax : Nat) (d comm : String) : String :=
  String.mk ((d ++ "/" ++ comm).data.take (pathMax - 1))

/-- The `while (path)` probe loop of the OpenBSD variant: for each `PATH`
entry `d` build `epath` by `snprintf(epath, PATH_MAX, "%s/%s", path, comm)`
(the join truncated to the buffer), test it with `st` (`stat` succeeds and
`S_IXUSR` is set) and stop at the first hit. Returns the probed `epath`s in
order and the hit, if any. -/
def pathProbe (pathMax : Nat) (comm : String) (st : String → Bool) :
    List String → List String × Option String
  | [] => ([], none)
  | d :: ds =>
    let epath := snprintfJoin pathMax d comm
    if st epath then ([epath], some epath)
    else
      let r := pathProbe pathMax comm st ds
      (epath :: r.1, r.2)

/-- OpenBSD variant of `proc_self_dirname`. `pathMax` is the platform's
`PATH_MAX` (1024 on OpenBSD), bounding the `snprintf` that builds each probe
path; `comm` is `argv[0]` as delivered by the `KERN_PROC_ARGV` sysctl; `rp`
models `realpath`; `envPATH` is `getenv("PATH")` (`strdup` failure is folded
into `none`, since both leave `xpath` null). Output: the directory string
together with the list of probed candidate paths.

The source calls `strtok_r(xpath, ":", &sp)` on line 165 *before* the
`if (!xpath)` guard on line 168, and `strdup(getenv("PATH"))` already
dereferences the null pointer when `PATH` is unset, so the `none` case is
undefined behavior; the guard itself sits after tokenization, where `xpath`
is necessarily non-null. -/
def proc_self_dirname_openbsd (pathMax : Nat) (comm : String)
    (rp : String → Option String) (envPATH : Option String) (st : String → Bool) :
    CResult (String × List String) :=
  if startsWithSlashOrDot comm then
    match rp comm with
    | some epath => .ok (dirnameOf epath, [])
    | none => .ok ("", [])
  else
    match envPATH with
    | none => .undefinedBehavior
    | some p =>
      if (Option.some p).isNone then .fatalError
      else
        let pr := pathProbe pathMax comm st (strtokSplit p)
        match pr.2 with
        | some epath => .ok (dirnameOf epath, pr.1)
        | none => .ok ("", pr.1)

/-- Emscripten variant: a constant root path. -/
def proc_self_dirname_emscripten : String := "/"

/-- `file_test_open`: `fopen(path, "r")`, and on success an immediate
`fclose`. Only the Boolean outcome survives; `errno` is discarded, so
permission denial and absence are indistinguishable. `fs` is the ambient
filesystem state. -/
def file_test_open (fs : String → Bool) (path : String) : Bool := fs path

/-- `PREFIX[0] == '~' && PREFIX[1] == '/'`. A prefix shorter than two
characters reads the NUL terminator and fails the test. -/
def tildePrefixed (s : String) : Bool :=
  match s.data with
  | '~' :: '/' :: _ => true
  | _ => false

/-- The home-override candidate:
`homepath += getenv("HOME"); homepath += std::string(&PREFIX[1]) + "/"
CHIPDB_SUBDIR "/chipdb-" + config_device + ".txt"`. -/
def homepathOf (homeStr pfx subdir device : String) : String :=
  homeStr ++ pfx.drop 1 ++ "/" ++ subdir ++ "/chipdb-" ++ device ++ ".txt"

/-- The fixed-prefix candidate:
`PREFIX "/share/" CHIPDB_SUBDIR "/chipdb-" + config_device + ".txt"`. -/
def prefixpathOf (pfx subdir device : String) : String :=
  pfx ++ "/share/" ++ subdir ++ "/chipdb-" ++ device ++ ".txt"

/-- The relative-to-executable candidate:
`proc_self_dirname() + "../share/" CHIPDB_SUBDIR "/chipdb-" + config_device
+ ".txt"`. -/
def relbinarypathOf (exeDir subdir device : String) : String :=
  exeDir ++ "../share/" ++ subdir ++ "/chipdb-" ++ device ++ ".txt"

/-- The diagnostic line
`fprintf(stderr, "Looking for chipdb '%s' at %s\n", ...)`. -/
def logMsg (device path : String) : String :=
  "Looking for chipdb \x27" ++ device ++ "\x27 at " ++ path ++ "\n"

/-- Observable outcome of `find_chipdb`: the returned path (`""` is the
not-found sentinel), the candidate paths probed in order, and the stderr
diagnostics emitted. -/
structure FindResult where
  result : String
  probes : List String
  logs : List String
deriving DecidableEq, Repr

/-- Steps 2 and 3 of `find_chipdb` (the fixed-prefix and the
relative-to-executable candidates), reached when step 1 missed or was
skipped. -/
def find_chipdb_rest (pfx subdir device exeDir : String)
    (fs : String → Bool) (verbose : Bool) : FindResult :=
  let prefixpath := prefixpathOf pfx subdir device
  let l2 := if verbose then [logMsg device prefixpath] else []
  if file_test_open fs prefixpath then ⟨prefixpath, [prefixpath], l2⟩
  else
    let relbinarypath := relbinarypathOf exeDir subdir device
    let l3 := if verbose then [logMsg device relbinarypath] else []
    if file_test_open fs relbinarypath then
      ⟨relbinarypath, [prefixpath, relbinarypath], l2 ++ l3⟩
    else ⟨"", [prefixpath, relbinarypath], l2 ++ l3⟩

/-- `find_chipdb` with the home directory string already resolved (the body
of the function once `homepath`'s base is known). `exeDir` stands for the
`proc_self_dirname()` call in step 3. -/
def find_chipdb_core (pfx subdir device homeStr exeDir : String)
    (fs : String → Bool) (verbose : Bool) : FindResult :=
  if tildePrefixed pfx then
    let homepath := homepathOf homeStr pfx subdir device
    let l1 := if verbose then [logMsg device homepath] else []
    if file_test_open fs homepath then ⟨homepath, [homepath], l1⟩
    else
      let r := find_chipdb_rest pfx subdir device exeDir fs verbose
      ⟨r.result, homepath :: r.probes, l1 ++ r.logs⟩
  else find_chipdb_rest pfx subdir device exeDir fs verbose

/-- The candidate paths in the priority order of the source: the
home-override candidate (only when the prefix is `~/`-marked), then the
fixed-prefix candidate, then the relative-to-executable candidate. -/
def chipdbCandidates (pfx subdir device homeStr exeDir : String) : List String :=
  (if tildePrefixed pfx then [homepathOf homeStr pfx subdir device] else [])
    ++ [prefixpathOf pfx subdir device, relbinarypathOf exeDir subdir device]

/-- POSIX (`#else`) branch of `find_chipdb`: inside the `~/` branch the
source runs `homepath += getenv("HOME")` with no null check, so an unset
`HOME` (null pointer appended to a `std::string`) is undefined behavior. -/
def find_chipdb_posix (pfx subdir device : String) (home : Option String)
    (exeDir : String) (fs : String → Bool) (verbose : Bool) : Option FindResult :=
  if tildePrefixed pfx && home.isNone then none
  else some (find_chipdb_core pfx subdir device (home.getD "") exeDir fs verbose)

/-- The `_WIN32` home resolution: `USERPROFILE` if set, else
`HOMEDRIVE ++ HOMEPATH` when both are set, else the empty base — every
`getenv` result is null-checked before use. -/
def winHomeStr (userprofile homedrive homepathVar : Option String) : String :=
  match userprofile with
  | some u => u
  | none =>
    match homedrive, homepathVar with
    | some d, some p => d ++ p
    | _, _ => ""

/-- `_WIN32` branch of `find_chipdb`: total, because every environment
variable read is guarded in the source. -/
def find_chipdb_win (pfx subdir device : String)
    (userprofile homedrive homepathVar : Option String)
    (exeDir : String) (fs : String → Bool) (verbose : Bool) : Option FindResult :=
  some (find_chipdb_core pfx subdir device
    (winHomeStr userprofile homedrive homepathVar) exeDir fs verbose)

/-- A directory string as `find_chipdb`'s step 3 expects it: empty, or
ending in the separator with nothing after it. -/
def dirStringOk (s : String) : Prop :=
  s = "" ∨ s.data.getLast? = some '/'

/-- The Windows analogue, accepting either separator convention. -/
def dirStringOkWin (s : String) : Prop :=
  s = "" ∨ s.data.getLast? = some '/' ∨ s.data.getLast? = some '\\'

/-- The probe loop of `find_chipdb` over an explicit candidate list: log the
candidate when verbose, probe it, return it on a hit, otherwise continue;
the sentinel `""` when the list is exhausted. `find_chipdb_core` unfolds to
this loop on `chipdbCandidates`. -/
def probeSeq (device : String) (fs : String → Bool) (verbose : Bool) :
    List String → FindResult
  | [] => ⟨"", [], []⟩
  | c :: cs =>
    let lg := if verbose then [logMsg device c] else []
    if file_test_open fs c then ⟨c, [c], lg⟩
    else
      let r := probeSeq device fs verbose cs
      ⟨r.result, c :: r.probes, lg ++ r.logs⟩

theorem dropWhile_head_not (p : Char → Bool) (l : List Char) :
    l.dropWhile p = [] ∨ ∃ c cs, l.dropWhile p = c :: cs ∧ p c = false := by
  induction l with
  | nil => exact Or.inl rfl
  | cons c l ih =>
    cases hp : p c with
    | true => rw [List.dropWhile_cons, if_pos hp]; exact ih
    | false => exact Or.inr ⟨c, l, by rw [List.dropWhile_cons, if_neg (by simp [hp])], hp⟩

theorem dirnameChars_shape (cs : List Char) :
    dirnameChars cs = [] ∨ (dirnameChars cs).getLast? = some '/' := by
  unfold dirnameChars
  rcases dropWhile_head_not (fun c => c != '/') cs.reverse with h | ⟨c, l, h, hc⟩
  · exact Or.inl (by rw [h]; rfl)
  · right
    have hcs : c = '/' := by simpa using hc
    rw [h, List.getLast?_reverse, hcs]
    rfl

theorem trimWinChars_shape (cs : List Char) :
    trimWinChars cs = [] ∨ (trimWinChars cs).getLast? = some '/' ∨
      (trimWinChars cs).getLast? = some '\\' := by
  unfold trimWinChars
  rcases dropWhile_head_not (fun c => c != '/' && c != '\\') cs.reverse with h | ⟨c, l, h, hc⟩
  · exact Or.inl (by rw [h]; rfl)
  · right
    have hcs : c = '/' ∨ c = '\\' := by
      rcases Bool.and_eq_false_iff.mp hc with h1 | h1
      · exact Or.inl (by simpa using h1)
      · exact Or.inr (by simpa using h1)
    rw [h, List.getLast?_reverse]
    rcases hcs with h2 | h2
    · exact Or.inl (by rw [h2]; rfl)
    · exact Or.inr (by rw [h2]; rfl)

theorem dirStringOk_dirnameOf (s : String) : dirStringOk (dirnameOf s) := by
  unfold dirStringOk dirnameOf
  rcases dirnameChars_shape s.data with h | h
  · exact Or.inl (by rw [h])
  · exact Or.inr h

theorem dropWhile_append_all (p : Char → Bool) (l1 l2 : List Char)
    (h : ∀ c ∈ l1, p c = true) : (l1 ++ l2).dropWhile p = l2.dropWhile p := by
  induction l1 with
  | nil => rfl
  | cons c l ih =>
    rw [List.cons_append, List.dropWhile_cons, if_pos (h c (by simp))]
    exact ih (fun c hc => h c (by simp [hc]))

theorem dirnameChars_concat_no_slash (ds cs : List Char)
    (h : ∀ c ∈ cs, c ≠ '/') :
    dirnameChars (ds ++ '/' :: cs) = ds ++ ['/'] := by
  unfold dirnameChars
  have h1 : (ds ++ '/' :: cs).reverse = cs.reverse ++ ('/' :: ds.reverse) := by
    simp
  rw [h1, dropWhile_append_all _ _ _ (fun c hc => by
    simp only [bne_iff_ne, ne_eq]
    exact h c (List.mem_reverse.mp hc))]
  rw [List.dropWhile_cons, if_neg (by simp)]
  simp

theorem dirnameOf_join (d comm : String) (h : ∀ c ∈ comm.data, c ≠ '/') :
    dirnameOf (d ++ "/" ++ comm) = d ++ "/" := by
  unfold dirnameOf
  apply String.ext
  show dirnameChars (d ++ "/" ++ comm).data = (d ++ "/").data
  rw [String.data_append, String.data_append]
  have hslash : ("/" : String).data = ['/'] := rfl
  rw [hslash, List.append_assoc]
  have : ['/'] ++ comm.data = '/' :: comm.data := rfl
  rw [this, dirnameChars_concat_no_slash d.data comm.data h]

theorem exists_first_hit_decomp (fs : String → Bool) (l : List String) :
    (∀ c ∈ l, fs c = false) ∨
      ∃ l1 c l2, l = l1 ++ c :: l2 ∧ (∀ e ∈ l1, fs e = false) ∧ fs c = true := by
  induction l with
  | nil => exact Or.inl (by simp)
  | cons c cs ih =>
    cases hc : fs c with
    | true => exact Or.inr ⟨[], c, cs, by simp, by simp, hc⟩
    | false =>
      rcases ih with h | ⟨l1, d, l2, h1, h2, h3⟩
      · refine Or.inl (fun e he => ?_)
        rcases List.mem_cons.mp he with h4 | h4
        · rw [h4]; exact hc
        · exact h e h4
      · refine Or.inr ⟨c :: l1, d, l2, by rw [h1]; rfl, fun e he => ?_, h3⟩
        rcases List.mem_cons.mp he with h4 | h4
        · rw [h4]; exact hc
        · exact h2 e h4

theorem probeSeq_all_fail (device : String) (fs : String → Bool) (v : Bool)
    (l : List String) (h : ∀ c ∈ l, fs c = false) :
    probeSeq device fs v l
      = ⟨"", l, if v then l.map (logMsg device) else []⟩ := by
  induction l with
  | nil => cases v <;> simp [probeSeq]
  | cons c cs ih =>
    have hc : fs c = false := h c (by simp)
    have ih2 := ih (fun x hx => h x (by simp [hx]))
    cases v <;> simp [probeSeq, file_test_open, hc, ih2]

theorem probeSeq_first_hit (device : String) (fs : String → Bool) (v : Bool)
    (l1 : List String) (c : String) (l2 : List String)
    (h1 : ∀ e ∈ l1, fs e = false) (h2 : fs c = true) :
    probeSeq device fs v (l1 ++ c :: l2)
      = ⟨c, l1 ++ [c],
          if v then (l1 ++ [c]).map (logMsg device) else []⟩ := by
  induction l1 with
  | nil => cases v <;> simp [probeSeq, file_test_open, h2]
  | cons e es ih =>
    have he : fs e = false := h1 e (by simp)
    have ih2 := ih (fun x hx => h1 x (by simp [hx]))
    cases v <;> simp [probeSeq, file_test_open, he, ih2]

theorem probeSeq_probes_isPrefix (device : String) (fs : String → Bool) (v : Bool)
    (l : List String) : ∃ t, l = (probeSeq device fs v l).probes ++ t := by
  rcases exists_first_hit_decomp fs l with h | ⟨l1, c, l2, h1, h2, h3⟩
  · exact ⟨[], by rw [probeSeq_all_fail device fs v l h]; simp⟩
  · exact ⟨l2, by rw [h1, probeSeq_first_hit device fs v l1 c l2 h2 h3]; simp⟩

theorem probeSeq_dropLast_fail (device : String) (fs : String → Bool) (v : Bool)
    (l : List String) :
    ∀ c ∈ (probeSeq device fs v l).probes.dropLast, fs c = false := by
  rcases exists_first_hit_decomp fs l with h | ⟨l1, c, l2, h1, h2, h3⟩
  · rw [probeSeq_all_fail device fs v l h]
    exact fun e he => h e (List.mem_of_mem_dropLast he)
  · rw [h1, probeSeq_first_hit device fs v l1 c l2 h2 h3]
    intro e he
    simp only [List.dropLast_concat] at he
    exact h2 e he

theorem probeSeq_result_hit (device : String) (fs : String → Bool) (v : Bool)
    (l : List String) (hne : (probeSeq device fs v l).result ≠ "") :
    fs (probeSeq device fs v l).result = true ∧
      (probeSeq device fs v l).probes.getLast? = some (probeSeq device fs v l).result := by
  rcases exists_first_hit_decomp fs l with h | ⟨l1, c, l2, h1, h2, h3⟩
  · rw [probeSeq_all_fail device fs v l h] at hne
    exact absurd rfl hne
  · rw [h1, probeSeq_first_hit device fs v l1 c l2 h2 h3]
    exact ⟨h3, List.getLast?_concat l1⟩

theorem probeSeq_verbose_indep (device : String) (fs : String → Bool)
    (v1 v2 : Bool) (l : List String) :
    (probeSeq device fs v1 l).result = (probeSeq device fs v2 l).result ∧
      (probeSeq device fs v1 l).probes = (probeSeq device fs v2 l).probes := by
  rcases exists_first_hit_decomp fs l with h | ⟨l1, c, l2, h1, h2, h3⟩
  · rw [probeSeq_all_fail device fs v1 l h, probeSeq_all_fail device fs v2 l h]
    exact ⟨rfl, rfl⟩
  · rw [h1, probeSeq_first_hit device fs v1 l1 c l2 h2 h3,
      probeSeq_first_hit device fs v2 l1 c l2 h2 h3]
    exact ⟨rfl, rfl⟩

theorem probeSeq_logs (device : String) (fs : String → Bool) (v : Bool)
    (l : List String) :
    (probeSeq device fs v l).logs
      = if v then (probeSeq device fs v l).probes.map (logMsg device) else [] := by
  rcases exists_first_hit_decomp fs l with h | ⟨l1, c, l2, h1, h2, h3⟩
  · rw [probeSeq_all_fail device fs v l h]
  · rw [h1, probeSeq_first_hit device fs v l1 c l2 h2 h3]

theorem find_chipdb_rest_eq_probeSeq (pfx subdir device exeDir : String)
    (fs : String → Bool) (v : Bool) :
    find_chipdb_rest pfx subdir device exeDir fs v
      = probeSeq device fs v
          [prefixpathOf pfx subdir device, relbinarypathOf exeDir subdir device] := by
  unfold find_chipdb_rest
  cases hp : file_test_open fs (prefixpathOf pfx subdir device) with
  | true => simp [probeSeq, hp]
  | false =>
    cases hr : file_test_open fs (relbinarypathOf exeDir subdir device) with
    | true => simp [probeSeq, hp, hr]
    | false => simp [probeSeq, hp, hr]

theorem find_chipdb_core_eq_probeSeq (pfx subdir device homeStr exeDir : String)
    (fs : String → Bool) (v : Bool) :
    find_chipdb_core pfx subdir device homeStr exeDir fs v
      = probeSeq device fs v (chipdbCandidates pfx subdir device homeStr exeDir) := by
  unfold find_chipdb_core chipdbCandidates
  cases ht : tildePrefixed pfx with
  | false =>
    simp only [if_false, List.nil_append]
    exact find_chipdb_rest_eq_probeSeq pfx subdir device exeDir fs v
  | true =>
    simp only [if_true, List.singleton_append]
    cases hh : file_test_open fs (homepathOf homeStr pfx subdir device) with
    | true => simp [probeSeq, hh]
    | false =>
      simp only [probeSeq, hh, if_false,
        find_chipdb_rest_eq_probeSeq pfx subdir device exeDir fs v]

theorem snprintfJoin_eq_of_lt (pathMax : Nat) (d comm : String)
    (h : (d ++ "/" ++ comm).data.length < pathMax) :
    snprintfJoin pathMax d comm = d ++ "/" ++ comm := by
  unfold snprintfJoin
  apply String.ext
  show (d ++ "/" ++ comm).data.take (pathMax - 1) = (d ++ "/" ++ comm).data
  exact List.take_of_length_le (Nat.le_sub_one_of_lt h)

theorem pathProbe_all_fail (pathMax : Nat) (comm : String) (st : String → Bool)
    (ds : List String)
    (h : ∀ d ∈ ds, st (snprintfJoin pathMax d comm) = false) :
    pathProbe pathMax comm st ds
      = (ds.map (fun d => snprintfJoin pathMax d comm), none) := by
  induction ds with
  | nil => rfl
  | cons d ds ih =>
    have hd : st (snprintfJoin pathMax d comm) = false := h d (by simp)
    have ih2 := ih (fun x hx => h x (by simp [hx]))
    simp [pathProbe, hd, ih2]

theorem pathProbe_first_hit (pathMax : Nat) (comm : String) (st : String → Bool)
    (ds1 : List String) (d : String) (ds2 : List String)
    (h1 : ∀ e ∈ ds1, st (snprintfJoin pathMax e comm) = false)
    (h2 : st (snprintfJoin pathMax d comm) = true) :
    pathProbe pathMax comm st (ds1 ++ d :: ds2)
      = ((ds1 ++ [d]).map (fun e => snprintfJoin pathMax e comm),
          some (snprintfJoin pathMax d comm)) := by
  induction ds1 with
  | nil => simp [pathProbe, h2]
  | cons e es ih =>
    have he : st (snprintfJoin pathMax e comm) = false := h1 e (by simp)
    have ih2 := ih (fun x hx => h1 x (by simp [hx]))
    simp [pathProbe, he, ih2]

theorem openbsd_reduce (pathMax : Nat) (comm : String) (rp : String → Option String)
    (p : String) (st : String → Bool) (h : startsWithSlashOrDot comm = false) :
    proc_self_dirname_openbsd pathMax comm rp (some p) st
      = (match (pathProbe pathMax comm st (strtokSplit p)).2 with
          | some epath =>
              CResult.ok (dirnameOf epath, (pathProbe pathMax comm st (strtokSplit p)).1)
          | none => CResult.ok ("", (pathProbe pathMax comm st (strtokSplit p)).1)) := by
  unfold proc_self_dirname_openbsd
  simp only [h]
  rfl

theorem openbsd_reduce_abs (pathMax : Nat) (comm : String) (rp : String → Option String)
    (ep : Option String) (st : String → Bool) (h : startsWithSlashOrDot comm = true) :
    proc_self_dirname_openbsd pathMax comm rp ep st
      = (match rp comm with
          | some epath => CResult.ok (dirnameOf epath, ([] : List String))
          | none => CResult.ok ("", ([] : List String))) := by
  unfold proc_self_dirname_openbsd
  simp only [h]
  rfl

theorem openbsd_reduce_none (pathMax : Nat) (comm : String) (rp : String → Option String)
    (st : String → Bool) (h : startsWithSlashOrDot comm = false) :
    proc_self_dirname_openbsd pathMax comm rp none st = .undefinedBehavior := by
  unfold proc_self_dirname_openbsd
  simp only [h]
  rfl

theorem dirStringOk_mk_dirnameChars (cs : List Char) :
    dirStringOk (String.mk (dirnameChars cs)) := by
  unfold dirStringOk
  rcases dirnameChars_shape cs with h | h
  · exact Or.inl (by rw [h])
  · exact Or.inr h

theorem dirStringOkWin_mk_trimWinChars (cs : List Char) :
    dirStringOkWin (String.mk (trimWinChars cs)) := by
  unfold dirStringOkWin
  rcases trimWinChars_shape cs with h | h | h
  · exact Or.inl (by rw [h])
  · exact Or.inr (Or.inl h)
  · exact Or.inr (Or.inr h)

/-- Claim C1: `find_chipdb` evaluates its three candidate paths
(home-override, fixed-prefix, relative-to-executable) in that strict
priority order and returns the first candidate whose open-for-read probe
succeeds, never probing any later candidate after a hit; in particular,
when files exist at both the home-override and fixed-prefix locations the
home-override path is returned, and when the home-override probe does not
succeed (the spec's "only" scenario) while files exist at the fixed-prefix
and relative-to-executable locations, the fixed-prefix path is returned. -/
theorem find_chipdb_strict_priority (pfx subdir device homeStr exeDir : String)
    (fs : String → Bool) (v : Bool) :
    (∃ t, chipdbCandidates pfx subdir device homeStr exeDir
        = (find_chipdb_core pfx subdir device homeStr exeDir fs v).probes ++ t)
    ∧ (∀ c ∈ (find_chipdb_core pfx subdir device homeStr exeDir fs v).probes.dropLast,
        fs c = false)
    ∧ ((find_chipdb_core pfx subdir device homeStr exeDir fs v).result ≠ "" →
        fs (find_chipdb_core pfx subdir device homeStr exeDir fs v).result = true ∧
          (find_chipdb_core pfx subdir device homeStr exeDir fs v).probes.getLast?
            = some (find_chipdb_core pfx subdir device homeStr exeDir fs v).result)
    ∧ (tildePrefixed pfx = true →
        fs (homepathOf homeStr pfx subdir device) = true →
        (find_chipdb_core pfx subdir device homeStr exeDir fs v).result
          = homepathOf homeStr pfx subdir device)
    ∧ ((tildePrefixed pfx = true → fs (homepathOf homeStr pfx subdir device) = false) →
        fs (prefixpathOf pfx subdir device) = true →
        (find_chipdb_core pfx subdir device homeStr exeDir fs v).result
          = prefixpathOf pfx subdir device) := by
  rw [find_chipdb_core_eq_probeSeq]
  refine ⟨probeSeq_probes_isPrefix device fs v _, probeSeq_dropLast_fail device fs v _,
    probeSeq_result_hit device fs v _, ?_, ?_⟩
  · intro ht hh
    have hc : chipdbCandidates pfx subdir device homeStr exeDir
        = [] ++ homepathOf homeStr pfx subdir device ::
            [prefixpathOf pfx subdir device, relbinarypathOf exeDir subdir device] := by
      simp [chipdbCandidates, ht]
    rw [hc, probeSeq_first_hit device fs v [] _ _ (by simp) hh]
  · intro hhome hp
    cases ht : tildePrefixed pfx with
    | false =>
      have hc : chipdbCandidates pfx subdir device homeStr exeDir
          = [] ++ prefixpathOf pfx subdir device :: [relbinarypathOf exeDir subdir device] := by
        simp [chipdbCandidates, ht]
      rw [hc, probeSeq_first_hit device fs v [] _ _ (by simp) hp]
    | true =>
      have hh : fs (homepathOf homeStr pfx subdir device) = false := hhome ht
      have hc : chipdbCandidates pfx subdir device homeStr exeDir
          = [homepathOf homeStr pfx subdir device]
              ++ prefixpathOf pfx subdir device :: [relbinarypathOf exeDir subdir device] := by
        simp [chipdbCandidates, ht]
      rw [hc, probeSeq_first_hit device fs v [homepathOf homeStr pfx subdir device] _ _
        (fun e he => by rw [List.mem_singleton.mp he]; exact hh) hp]

theorem find_chipdb_strict_priority_witness :
    (find_chipdb_core "~/x" "s" "d" "/h" "/e/"
        (fun s => s == "/h/x/s/chipdb-d.txt") false).result = "/h/x/s/chipdb-d.txt" := by
  have h := (find_chipdb_strict_priority "~/x" "s" "d" "/h" "/e/"
      (fun s => s == "/h/x/s/chipdb-d.txt") false).2.2.2.1 (by decide) (by decide)
  rw [h]
  decide

/-- Claim C3: if the configured prefix does not begin with "~/", the
home-override candidate is never constructed or probed for any resource
identifier and any filesystem state (the result coincides with the
two-candidate tail, independently of the home directory, and the probe list
is drawn only from the fixed-prefix and relative-to-executable candidates),
even when a matching file exists at the home-override location. -/
theorem find_chipdb_no_tilde_skips_home (pfx subdir device homeStr exeDir : String)
    (fs : String → Bool) (v : Bool) (h : tildePrefixed pfx = false) :
    find_chipdb_core pfx subdir device homeStr exeDir fs v
      = find_chipdb_rest pfx subdir device exeDir fs v
    ∧ (∃ t, [prefixpathOf pfx subdir device, relbinarypathOf exeDir subdir device]
        = (find_chipdb_core pfx subdir device homeStr exeDir fs v).probes ++ t) := by
  have h1 : find_chipdb_core pfx subdir device homeStr exeDir fs v
      = find_chipdb_rest pfx subdir device exeDir fs v := by
    unfold find_chipdb_core
    rw [h]
    simp
  refine ⟨h1, ?_⟩
  rw [h1, find_chipdb_rest_eq_probeSeq]
  exact probeSeq_probes_isPrefix device fs v _

theorem find_chipdb_no_tilde_skips_home_witness :
    find_chipdb_core "/opt" "s" "d" "/h" "/e/"
        (fun s => s == "/hopt/s/chipdb-d.txt") false
      = find_chipdb_rest "/opt" "s" "d" "/e/" (fun s => s == "/hopt/s/chipdb-d.txt") false :=
  (find_chipdb_no_tilde_skips_home "/opt" "s" "d" "/h" "/e/"
      (fun s => s == "/hopt/s/chipdb-d.txt") false (by decide)).1

/-- Claim C4: if none of the candidates' open-for-read probes succeeds,
`find_chipdb` returns the empty-path sentinel after probing every candidate,
and raises no fatal condition (the POSIX entry point still returns a value);
the probe is the Boolean `file_test_open`, which discards `errno`, so no
detail distinguishing permission denial from absence is retained. -/
theorem find_chipdb_all_fail_sentinel (pfx subdir device homeStr exeDir : String)
    (fs : String → Bool) (v : Bool)
    (h1 : tildePrefixed pfx = true → fs (homepathOf homeStr pfx subdir device) = false)
    (h2 : fs (prefixpathOf pfx subdir device) = false)
    (h3 : fs (relbinarypathOf exeDir subdir device) = false) :
    (find_chipdb_core pfx subdir device homeStr exeDir fs v).result = ""
    ∧ (find_chipdb_core pfx subdir device homeStr exeDir fs v).probes
        = chipdbCandidates pfx subdir device homeStr exeDir
    ∧ (find_chipdb_posix pfx subdir device (some homeStr) exeDir fs v).isSome = true := by
  have hall : ∀ c ∈ chipdbCandidates pfx subdir device homeStr exeDir, fs c = false := by
    intro c hc
    unfold chipdbCandidates at hc
    cases ht : tildePrefixed pfx with
    | true =>
      rw [ht] at hc
      simp at hc
      rcases hc with h | h | h
      · rw [h]; exact h1 ht
      · rw [h]; exact h2
      · rw [h]; exact h3
    | false =>
      rw [ht] at hc
      simp at hc
      rcases hc with h | h
      · rw [h]; exact h2
      · rw [h]; exact h3
  rw [find_chipdb_core_eq_probeSeq, probeSeq_all_fail device fs v _ hall]
  refine ⟨rfl, rfl, ?_⟩
  simp [find_chipdb_posix]

theorem find_chipdb_all_fail_sentinel_witness :
    (find_chipdb_core "~/x" "s" "d" "/h" "/e/" (fun _ => false) true).result = "" :=
  (find_chipdb_all_fail_sentinel "~/x" "s" "d" "/h" "/e/" (fun _ => false) true
    (fun _ => rfl) rfl rfl).1

/-- Claim C5: with prefix "/opt/tool", subdir "share/chipdb" and resource
identifier "hx8k", the fixed-prefix candidate is literally
"/opt/tool/share/share/chipdb/chipdb-hx8k.txt" — the template inserts the
literal "/share/" between the prefix and the subdirectory unconditionally,
producing the doubled "share" — and `find_chipdb` constructs and returns
exactly that path when the file there is openable. -/
theorem find_chipdb_doubled_share (homeStr exeDir : String) (fs : String → Bool) (v : Bool)
    (h : fs "/opt/tool/share/share/chipdb/chipdb-hx8k.txt" = true) :
    prefixpathOf "/opt/tool" "share/chipdb" "hx8k"
        = "/opt/tool/share/share/chipdb/chipdb-hx8k.txt"
    ∧ (find_chipdb_core "/opt/tool" "share/chipdb" "hx8k" homeStr exeDir fs v).result
        = "/opt/tool/share/share/chipdb/chipdb-hx8k.txt" := by
  have hpp : prefixpathOf "/opt/tool" "share/chipdb" "hx8k"
      = "/opt/tool/share/share/chipdb/chipdb-hx8k.txt" := by decide
  refine ⟨hpp, ?_⟩
  have hc : chipdbCandidates "/opt/tool" "share/chipdb" "hx8k" homeStr exeDir
      = [] ++ prefixpathOf "/opt/tool" "share/chipdb" "hx8k"
          :: [relbinarypathOf exeDir "share/chipdb" "hx8k"] := by
    simp [chipdbCandidates, show tildePrefixed "/opt/tool" = false from rfl]
  rw [find_chipdb_core_eq_probeSeq, hc,
    probeSeq_first_hit "hx8k" fs v [] _ _ (by simp) (by rw [hpp]; exact h)]
  exact hpp

theorem find_chipdb_doubled_share_witness :
    (find_chipdb_core "/opt/tool" "share/chipdb" "hx8k" "" "/e/"
        (fun s => s == "/opt/tool/share/share/chipdb/chipdb-hx8k.txt") false).result
      = "/opt/tool/share/share/chipdb/chipdb-hx8k.txt" :=
  (find_chipdb_doubled_share "" "/e/"
      (fun s => s == "/opt/tool/share/share/chipdb/chipdb-hx8k.txt") false (by decide)).2

/-- Claim C8: the verbose flag never affects `find_chipdb`'s control flow or
result: for every resource identifier and every filesystem state the
returned path and the probed candidates with verbose set equal those with
verbose clear; verbosity only adds one diagnostic line per probe, naming the
resource identifier and the full candidate path, emitted before the probe
(the log order is the probe order). -/
theorem find_chipdb_verbose_observational (pfx subdir device homeStr exeDir : String)
    (fs : String → Bool) :
    ((find_chipdb_core pfx subdir device homeStr exeDir fs true).result
        = (find_chipdb_core pfx subdir device homeStr exeDir fs false).result)
    ∧ ((find_chipdb_core pfx subdir device homeStr exeDir fs true).probes
        = (find_chipdb_core pfx subdir device homeStr exeDir fs false).probes)
    ∧ (find_chipdb_core pfx subdir device homeStr exeDir fs false).logs = []
    ∧ (find_chipdb_core pfx subdir device homeStr exeDir fs true).logs
        = (find_chipdb_core pfx subdir device homeStr exeDir fs true).probes.map
            (logMsg device) := by
  simp only [find_chipdb_core_eq_probeSeq]
  refine ⟨(probeSeq_verbose_indep device fs true false _).1,
    (probeSeq_verbose_indep device fs true false _).2, ?_, ?_⟩
  · rw [probeSeq_logs]
    rfl
  · rw [probeSeq_logs]
    rfl

/-- Claim C9 (implicit): in the "~/" branch the POSIX build appends
`getenv("HOME")` to a `std::string` with no null check, so the home-override
step is well-defined only under the unstated precondition that `HOME` is set
(an unset `HOME` is undefined behavior, modelled as `none`); the Windows
branch null-checks every environment variable it reads and is total for
every combination of `USERPROFILE`, `HOMEDRIVE` and `HOMEPATH`. -/
theorem find_chipdb_home_env_nullcheck (pfx subdir device exeDir : String)
    (fs : String → Bool) (v : Bool) (h : tildePrefixed pfx = true) :
    find_chipdb_posix pfx subdir device none exeDir fs v = none
    ∧ (∀ home : Option String, home ≠ none →
        (find_chipdb_posix pfx subdir device home exeDir fs v).isSome = true)
    ∧ (∀ up hd hpv : Option String,
        (find_chipdb_win pfx subdir device up hd hpv exeDir fs v).isSome = true) := by
  refine ⟨?_, ?_, fun up hd hpv => rfl⟩
  · unfold find_chipdb_posix
    rw [h]
    rfl
  · intro home hh
    cases home with
    | none => exact absurd rfl hh
    | some hs => simp [find_chipdb_posix]

theorem find_chipdb_home_env_nullcheck_witness :
    find_chipdb_posix "~/x" "s" "d" none "/e/" (fun _ => false) false = none :=
  (find_chipdb_home_env_nullcheck "~/x" "s" "d" "/e/" (fun _ => false) false rfl).1

/-- Claim C6 (amended): on the argv0-search (OpenBSD) variant, when
`argv[0]` begins with neither a path separator nor a relative-path marker,
`proc_self_dirname` splits `PATH` on ":", probes each entry by joining it
with `argv[0]` and testing existence plus the executable permission bit —
provided each such join fits within the `PATH_MAX` buffer of the `snprintf`
that builds it (a longer join is silently truncated before the probe) —
stops at the first match (the probe trace is exactly the failing entries
followed by the hit) and returns the matched path's directory with its
trailing separator (for a bare `argv[0]` with no internal "/", the matching
`PATH` entry followed by "/"); if no `PATH` entry matches, it returns the
empty string without terminating the process. -/
theorem openbsd_path_search_spec (pathMax : Nat) (comm p : String)
    (rp : String → Option String) (st : String → Bool)
    (h : startsWithSlashOrDot comm = false)
    (hfit : ∀ d ∈ strtokSplit p, (d ++ "/" ++ comm).data.length < pathMax) :
    ((∀ d ∈ strtokSplit p, st (d ++ "/" ++ comm) = false) →
        proc_self_dirname_openbsd pathMax comm rp (some p) st
          = .ok ("", (strtokSplit p).map (fun d => d ++ "/" ++ comm)))
    ∧ (∀ ds1 d ds2, strtokSplit p = ds1 ++ d :: ds2 →
        (∀ e ∈ ds1, st (e ++ "/" ++ comm) = false) →
        st (d ++ "/" ++ comm) = true →
        proc_self_dirname_openbsd pathMax comm rp (some p) st
          = .ok (dirnameOf (d ++ "/" ++ comm),
              (ds1 ++ [d]).map (fun e => e ++ "/" ++ comm)))
    ∧ ((∀ c ∈ comm.data, c ≠ '/') →
        ∀ d : String, dirnameOf (d ++ "/" ++ comm) = d ++ "/") := by
  have hjoin : ∀ d ∈ strtokSplit p, snprintfJoin pathMax d comm = d ++ "/" ++ comm :=
    fun d hd => snprintfJoin_eq_of_lt pathMax d comm (hfit d hd)
  refine ⟨?_, ?_, fun hns d => dirnameOf_join d comm hns⟩
  · intro hall
    have hall2 : ∀ d ∈ strtokSplit p, st (snprintfJoin pathMax d comm) = false := by
      intro d hd
      rw [hjoin d hd]
      exact hall d hd
    rw [openbsd_reduce pathMax comm rp p st h,
      pathProbe_all_fail pathMax comm st _ hall2,
      List.map_congr_left hjoin]
  · intro ds1 d ds2 hds hfail hhit
    have hds1 : ∀ e ∈ ds1, (e ++ "/" ++ comm).data.length < pathMax := by
      intro e he
      exact hfit e (by rw [hds]; exact List.mem_append_left _ he)
    have hd : (d ++ "/" ++ comm).data.length < pathMax :=
      hfit d (by rw [hds]; exact List.mem_append_right _ (by simp))
    have hfail2 : ∀ e ∈ ds1, st (snprintfJoin pathMax e comm) = false := by
      intro e he
      rw [snprintfJoin_eq_of_lt pathMax e comm (hds1 e he)]
      exact hfail e he
    have hhit2 : st (snprintfJoin pathMax d comm) = true := by
      rw [snprintfJoin_eq_of_lt pathMax d comm hd]
      exact hhit
    have hmap : (ds1 ++ [d]).map (fun e => snprintfJoin pathMax e comm)
        = (ds1 ++ [d]).map (fun e => e ++ "/" ++ comm) := by
      apply List.map_congr_left
      intro e he
      rcases List.mem_append.mp he with h1 | h1
      · exact snprintfJoin_eq_of_lt pathMax e comm (hds1 e h1)
      · rw [List.mem_singleton.mp h1]
        exact snprintfJoin_eq_of_lt pathMax d comm hd
    rw [openbsd_reduce pathMax comm rp p st h, hds,
      pathProbe_first_hit pathMax comm st ds1 d ds2 hfail2 hhit2,
      snprintfJoin_eq_of_lt pathMax d comm hd, hmap]

theorem openbsd_path_search_spec_witness :
    proc_self_dirname_openbsd 1024 "tool" (fun _ => none) (some "/a:/b:/c")
        (fun s => s == "/b/tool")
      = .ok ("/b/", ["/a/tool", "/b/tool"]) := by
  have h := (openbsd_path_search_spec 1024 "tool" "/a:/b:/c" (fun _ => none)
      (fun s => s == "/b/tool") (by decide) (by decide)).2.1 ["/a"] "/b" ["/c"]
      (by decide) (by decide) (by decide)
  rw [h]
  decide

theorem openbsd_path_truncation_counterexample :
    proc_self_dirname_openbsd 8 "tool" (fun _ => none) (some "/aaaaaa")
        (fun s => s == "/aaaaaa")
      = .ok ("/", ["/aaaaaa"])
    ∧ (∀ d ∈ strtokSplit "/aaaaaa",
        (fun s => s == "/aaaaaa") (d ++ "/" ++ "tool") = false)
    ∧ snprintfJoin 8 "/aaaaaa" "tool" ≠ "/aaaaaa" ++ "/" ++ "tool" := by
  decide

/-- Claim C10 (implicit): on the OpenBSD variant the result of
`strdup(getenv("PATH"))` is passed to `strtok_r` before the `if (!xpath)`
null check, so with `PATH` unset (or `strdup` failed) the branch is
undefined behavior rather than the intended fatal error; the fatal guard
can never fire, and the branch is well-defined exactly under the unstated
precondition that the duplicated `PATH` string is non-null. -/
theorem openbsd_null_guard_dead (pathMax : Nat) (comm : String) (st : String → Bool)
    (h : startsWithSlashOrDot comm = false) :
    (∀ rp, proc_self_dirname_openbsd pathMax comm rp none st = .undefinedBehavior)
    ∧ (∀ rp p, proc_self_dirname_openbsd pathMax comm rp (some p) st ≠ .fatalError)
    ∧ (∀ rp p, ∃ out,
        proc_self_dirname_openbsd pathMax comm rp (some p) st = .ok out) := by
  refine ⟨fun rp => openbsd_reduce_none pathMax comm rp st h,
    fun rp p => ?_, fun rp p => ?_⟩
  · rw [openbsd_reduce pathMax comm rp p st h]
    cases (pathProbe pathMax comm st (strtokSplit p)).2 <;> simp
  · rw [openbsd_reduce pathMax comm rp p st h]
    cases (pathProbe pathMax comm st (strtokSplit p)).2 with
    | none => exact ⟨_, rfl⟩
    | some epath => exact ⟨_, rfl⟩

theorem openbsd_null_guard_dead_witness :
    proc_self_dirname_openbsd 1024 "tool" (fun _ => none) none (fun _ => false)
      = .undefinedBehavior :=
  (openbsd_null_guard_dead 1024 "tool" (fun _ => false) (by decide)).1 (fun _ => none)

/-- Claim C2 (amended): on every platform variant, every normally returned
directory string is either empty or ends in a path separator (on Windows
either separator) and contains no characters — hence no filename segment —
after its last separator. The claim as stated (always exactly one trailing
separator) fails: the OpenBSD variant returns the empty string when the
`PATH` search finds no match, and a path whose basename is preceded by
consecutive separators trims to a directory ending in two separators. -/
theorem proc_self_dirname_dir_shape :
    (∀ t n out, proc_self_dirname_linux t n = .ok out → dirStringOk out)
    ∧ (∀ p out, proc_self_dirname_freebsd p = .ok out → dirStringOk out)
    ∧ (∀ p, dirStringOk (proc_self_dirname_apple p))
    ∧ (∀ p out, proc_self_dirname_windows p = .ok out → dirStringOkWin out)
    ∧ (∀ pathMax comm rp ep st out,
        proc_self_dirname_openbsd pathMax comm rp ep st = .ok out → dirStringOk out.1)
    ∧ dirStringOk proc_self_dirname_emscripten := by
  refine ⟨?_, ?_, ?_, ?_, ?_, Or.inr rfl⟩
  · intro t n out h
    cases t with
    | none => exact CResult.noConfusion h
    | some t2 =>
      injection h with h2
      rw [← h2]
      exact dirStringOk_mk_dirnameChars (t2.data.take n)
  · intro p out h
    cases p with
    | none => exact CResult.noConfusion h
    | some p2 =>
      injection h with h2
      rw [← h2]
      exact dirStringOk_mk_dirnameChars p2.data
  · intro p
    exact dirStringOk_mk_dirnameChars p.data
  · intro p out h
    cases p with
    | none => exact CResult.noConfusion h
    | some p2 =>
      injection h with h2
      rw [← h2]
      exact dirStringOkWin_mk_trimWinChars p2.data
  · intro pathMax comm rp ep st out h
    by_cases hsw : startsWithSlashOrDot comm = true
    · rw [openbsd_reduce_abs pathMax comm rp ep st hsw] at h
      cases hr : rp comm with
      | some e =>
        rw [hr] at h
        injection h with h2
        rw [← h2]
        exact dirStringOk_mk_dirnameChars e.data
      | none =>
        rw [hr] at h
        injection h with h2
        rw [← h2]
        exact Or.inl rfl
    · have hsw2 : startsWithSlashOrDot comm = false := by simpa using hsw
      cases ep with
      | none =>
        rw [openbsd_reduce_none pathMax comm rp st hsw2] at h
        exact CResult.noConfusion h
      | some q =>
        rw [openbsd_reduce pathMax comm rp q st hsw2] at h
        cases hm : (pathProbe pathMax comm st (strtokSplit q)).2 with
        | some e2 =>
          rw [hm] at h
          injection h with h2
          rw [← h2]
          exact dirStringOk_mk_dirnameChars e2.data
        | none =>
          rw [hm] at h
          injection h with h2
          rw [← h2]
          exact Or.inl rfl

theorem proc_self_dirname_dir_shape_witness : dirStringOk "/a/" :=
  proc_self_dirname_dir_shape.1 (some "/a/b") 99 "/a/" (by decide)

theorem proc_self_dirname_empty_counterexample :
    proc_self_dirname_openbsd 1024 "tool" (fun _ => none) (some "/a") (fun _ => false)
      = .ok ("", ["/a/tool"])
    ∧ ("" : String).data.getLast? ≠ some '/'
    ∧ proc_self_dirname_linux (some "/b//x") 99 = .ok "/b//"
    ∧ "/b//".data.getLast? = some '/'
    ∧ "/b//".data.dropLast.getLast? = some '/' := by
  decide

/-- Claim C7 (code bug): the buffer-based variants are claimed to guard
against truncation, but the Linux/Cygwin variant does not: when the
`readlink` target fills the `PATH_MAX` buffer entirely (here `PATH_MAX = 8`
and target "/a/bcdefgh/x"), the call is accepted (`buflen` is non-negative)
and the silently truncated directory "/a/" is returned, differing from the
true directory "/a/bcdefgh/". -/
theorem linux_truncation_not_detected :
    proc_self_dirname_linux (some "/a/bcdefgh/x") 8 = .ok "/a/"
    ∧ ("/a/bcdefgh/x".data.take 8).length = 8
    ∧ dirnameOf "/a/bcdefgh/x" = "/a/bcdefgh/"
    ∧ ("/a/" : String) ≠ "/a/bcdefgh/" := by
  decide
